import Mathlib

/-!
Verification of the `amortizer` package (`src/amortizer/generator.py`).

The Python code works on IEEE floats; here all arithmetic is embedded into `ℚ`
so that every quantity is exact and computable.  Display rounding
(`DataFrame.round(2)`) is modelled as round-half-up to two decimals; no claim
below depends on the tie-breaking direction of the rounding mode.

Inside the Python loops the whole growing dataframe is re-rounded
(`df = df.round(2)`) and the `Remaining debt` column re-clamped on every
iteration.  Both operations are idempotent (rounding an already-rounded value,
or clamping an already-clamped value, changes nothing), so each row of the
returned dataframe equals its raw row with the rounding and the clamp applied
once; the embedding applies them once per row (`displayRecord`).

Python raises `ZeroDivisionError` on float division by zero (unlike IEEE);
fallible code is therefore embedded with `Except`.
-/

/-- Round a rational to two decimal places (half-up), as the displayed values
of `DataFrame.round(2)`. -/
def round2 (x : ℚ) : ℚ := (round (100 * x) : ℤ) / 100

/-- The clamp `lambda x: 0 if x < 0 else x` applied to the `Remaining debt`
column. -/
def clampNonneg (x : ℚ) : ℚ := if x < 0 then 0 else x

/-- One row of an amortization dataframe: columns `Month:Period`,
`Amortization`, `Interest expense`, `Payment`, `Remaining debt`. -/
structure PeriodRecord where
  month : ℕ
  amortization : ℚ
  interest_expense : ℚ
  payment : ℚ
  remaining_debt : ℚ
deriving DecidableEq, Repr

/-- The rounding and clamping applied to a row before it is visible in the
returned dataframe. -/
def displayRecord (rec : PeriodRecord) : PeriodRecord :=
  { month := rec.month
    amortization := round2 rec.amortization
    interest_expense := round2 rec.interest_expense
    payment := round2 rec.payment
    remaining_debt := clampNonneg (round2 rec.remaining_debt) }

/-- A successfully constructed `Amortizer` as far as the schedule generators
are concerned: `self.amount`, `self.period`, `self.interest_rate`. -/
structure Amortizer where
  amount : ℚ
  period : ℕ
  interest_rate : ℚ
deriving DecidableEq, Repr

/-- The constraints the constructor enforces on a successfully constructed
object (the construction itself is modelled by `Amortizer.init` below; note it
does not constrain `amount`). -/
def Amortizer.Valid (a : Amortizer) : Prop :=
  0 < a.period ∧ 0 ≤ a.interest_rate ∧ a.interest_rate ≤ 100

instance (a : Amortizer) : Decidable a.Valid := by
  unfold Amortizer.Valid; infer_instance

/-- The loop of `straight_amortization`: `n` iterations left, current
`prev_rem_debt`, current loop index `i` (the row is tagged `i + 1`). -/
def straightRowsAux (amortization r : ℚ) : ℕ → ℚ → ℕ → List PeriodRecord
  | 0, _, _ => []
  | n + 1, prev_rem_debt, i =>
      let interest_exp := prev_rem_debt * r
      let remaining_debt := prev_rem_debt - amortization
      let payment_amount := interest_exp + amortization
      { month := i + 1
        amortization := amortization
        interest_expense := interest_exp
        payment := payment_amount
        remaining_debt := remaining_debt } ::
        straightRowsAux amortization r n remaining_debt (i + 1)

/-- `Amortizer.straight_amortization`: constant amortization
`amount / period`, monthly rate `interest_rate / 1200`, rows displayed with
two-decimal rounding and the non-negative clamp on `Remaining debt`. -/
def Amortizer.straight_amortization (a : Amortizer) : List PeriodRecord :=
  let amortization := a.amount / (a.period : ℚ)
  let interest_rate_period := a.interest_rate / 1200
  (straightRowsAux amortization interest_rate_period a.period a.amount 0).map
    displayRecord

/-- The loop of `annuity_amortization` (`P` is the constant
`annuity_payment`). -/
def annuityRowsAux (P r : ℚ) : ℕ → ℚ → ℕ → List PeriodRecord
  | 0, _, _ => []
  | n + 1, prev_rem_debt, i =>
      let interest_exp := prev_rem_debt * r
      let amortization := P - interest_exp
      let remaining_debt := prev_rem_debt - amortization
      { month := i + 1
        amortization := amortization
        interest_expense := interest_exp
        payment := P
        remaining_debt := remaining_debt } ::
        annuityRowsAux P r n remaining_debt (i + 1)

/-- The denominator `1 - 1 / (1 + interest_rate_period) ** period` of the
annuity payment formula. -/
def annuityDenom (a : Amortizer) : ℚ :=
  1 - 1 / (1 + a.interest_rate / 1200) ^ a.period

/-- The constant monthly payment
`amount * interest_rate_period / (1 - 1 / (1 + interest_rate_period) ** period)`. -/
def annuityPayment (a : Amortizer) : ℚ :=
  a.amount * (a.interest_rate / 1200) / annuityDenom a

/-- `Amortizer.annuity_amortization`.  The payment formula divides by
`annuityDenom`; Python float division by `0.0` raises `ZeroDivisionError`,
modelled by the `Except.error` branch. -/
def Amortizer.annuity_amortization (a : Amortizer) :
    Except String (List PeriodRecord) :=
  if annuityDenom a = 0 then
    .error "ZeroDivisionError: float division by zero"
  else
    .ok ((annuityRowsAux (annuityPayment a) (a.interest_rate / 1200) a.period
      a.amount 0).map displayRecord)

/-- The dictionary returned by `get_summary`. -/
structure SummaryStats where
  total_cost : ℚ
  average_interest_exp : ℚ
  average_monthly_pmt : ℚ
  total_interest_exp : ℚ
deriving DecidableEq, Repr

/-- The summary statistics computed from a dataframe: pandas `mean` is
`sum / count`, every entry rounded to two decimals. -/
def summaryOf (df : List PeriodRecord) : SummaryStats :=
  { total_cost := round2 ((df.map PeriodRecord.payment).sum)
    average_interest_exp :=
      round2 ((df.map PeriodRecord.interest_expense).sum / (df.length : ℚ))
    average_monthly_pmt :=
      round2 ((df.map PeriodRecord.payment).sum / (df.length : ℚ))
    total_interest_exp :=
      round2 ((df.map PeriodRecord.interest_expense).sum) }

/-- `Amortizer.get_summary`: dispatch on the method string.  `none` models the
implicit `return None` when `method` is neither recognized value; a
`some (.error e)` models an exception escaping from the schedule
computation. -/
def Amortizer.get_summary (a : Amortizer) (method : String) :
    Option (Except String SummaryStats) :=
  if method = "straight" then
    some (.ok (summaryOf a.straight_amortization))
  else if method = "annuity" then
    some ((a.annuity_amortization).map summaryOf)
  else
    none

/-- A Python value passed to the constructor: the type check
`type(arg) == str` only distinguishes strings from numbers. -/
inductive PyVal where
  | pyStr (s : String)
  | pyInt (n : ℤ)
  | pyFloat (q : ℚ)
deriving DecidableEq, Repr

/-- Whether `type(arg) == str`. -/
def PyVal.isStr : PyVal → Bool
  | .pyStr _ => true
  | _ => false

/-- The numeric value of a non-string argument; also the `float(...)`
coercion the constructor applies when storing. -/
def PyVal.toRat : PyVal → ℚ
  | .pyStr _ => 0
  | .pyInt n => (n : ℚ)
  | .pyFloat q => q

/-- The error classes the constructor can raise. -/
inductive InitError where
  | typeError (msg : String)
  | valueError (msg : String)
deriving DecidableEq, Repr

/-- The attributes stored on `self` by a successful `__init__`:
`float(amount)`, `period` as given, `float(interest_rate)`. -/
structure Stored where
  amount : ℚ
  period : PyVal
  interest_rate : ℚ
deriving DecidableEq, Repr

/-- `Amortizer.__init__`: string arguments raise `TypeError`; `period <= 0`
and `interest_rate` outside `[0, 100]` raise `ValueError`; otherwise the
attributes are stored. -/
def Amortizer.init (amount period interest_rate : PyVal) :
    Except InitError Stored :=
  if amount.isStr || period.isStr || interest_rate.isStr then
    .error (.typeError "Arguments must be Integer or Float")
  else if period.toRat ≤ 0 then
    .error (.valueError "Period cannot be less than 0 months")
  else if 100 < interest_rate.toRat || interest_rate.toRat < 0 then
    .error (.valueError
      "Interest rate per year cannot be more than 100 or less then 0%")
  else
    .ok { amount := amount.toRat
          period := period
          interest_rate := interest_rate.toRat }

/-- The raw (pre-display) row produced by iteration `k` (0-based) of the
straight-line loop started at balance `amount`. -/
def straightRaw (a : Amortizer) (k : ℕ) : PeriodRecord :=
  let amortization := a.amount / (a.period : ℚ)
  let r := a.interest_rate / 1200
  { month := k + 1
    amortization := amortization
    interest_expense := (a.amount - k * amortization) * r
    payment := (a.amount - k * amortization) * r + amortization
    remaining_debt := a.amount - (k + 1) * amortization }

/-- The exact outstanding balance before iteration `k` of the annuity loop:
`bal 0 = prev`, `bal (k+1) = bal k * (1 + r) - P` (which is
`bal k - (P - bal k * r)`, the loop's `remaining_debt`). -/
def annuityBal (P r prev : ℚ) : ℕ → ℚ
  | 0 => prev
  | k + 1 => annuityBal P r prev k * (1 + r) - P

/-- The raw (pre-display) row produced by iteration `k` (0-based) of the
annuity loop. -/
def annuityRaw (a : Amortizer) (k : ℕ) : PeriodRecord :=
  let P := annuityPayment a
  let r := a.interest_rate / 1200
  { month := k + 1
    amortization := P - annuityBal P r a.amount k * r
    interest_expense := annuityBal P r a.amount k * r
    payment := P
    remaining_debt := annuityBal P r a.amount (k + 1) }

/-! ### Helper lemmas about rounding and clamping -/

lemma round2_zero : round2 0 = 0 := by
  simp [round2]

lemma round2_mono {x y : ℚ} (h : x ≤ y) : round2 x ≤ round2 y := by
  unfold round2
  have h2 : round (100 * x) ≤ round (100 * y) := by
    rw [round_eq, round_eq]
    exact Int.floor_mono (by linarith)
  have h3 : ((round (100 * x) : ℤ) : ℚ) ≤ ((round (100 * y) : ℤ) : ℚ) := by
    exact_mod_cast h2
  linarith

lemma abs_round2_sub (x : ℚ) : |round2 x - x| ≤ 1 / 200 := by
  have h := abs_sub_round (100 * x)
  rw [abs_le] at h ⊢
  unfold round2
  constructor <;> [linarith [h.1, h.2]; linarith [h.1, h.2]]

lemma round2_nonpos {x : ℚ} (h : x ≤ 0) : round2 x ≤ 0 := by
  have := round2_mono h
  rwa [round2_zero] at this

lemma clampNonneg_nonneg (x : ℚ) : 0 ≤ clampNonneg x := by
  unfold clampNonneg
  split <;> linarith

lemma clampNonneg_mono {x y : ℚ} (h : x ≤ y) : clampNonneg x ≤ clampNonneg y := by
  unfold clampNonneg
  split <;> split <;> linarith

lemma clampNonneg_of_nonpos {x : ℚ} (h : x ≤ 0) : clampNonneg x = 0 := by
  unfold clampNonneg
  split
  · rfl
  · linarith

lemma clampRound2_mono {x y : ℚ} (h : x ≤ y) :
    clampNonneg (round2 x) ≤ clampNonneg (round2 y) :=
  clampNonneg_mono (round2_mono h)

lemma clampRound2_of_nonpos {x : ℚ} (h : x ≤ 0) : clampNonneg (round2 x) = 0 :=
  clampNonneg_of_nonpos (round2_nonpos h)

/-! ### Helper lemmas about sums over `List.range` -/

lemma list_sum_const (c : ℚ) (n : ℕ) :
    ((List.range n).map (fun _ => c)).sum = n * c := by
  induction n with
  | zero => simp
  | succ m ih =>
      rw [List.sum_range_succ, ih]
      push_cast
      ring

lemma list_sum_telescope (f : ℕ → ℚ) (n : ℕ) :
    ((List.range n).map (fun k => f k - f (k + 1))).sum = f 0 - f n := by
  induction n with
  | zero => simp
  | succ m ih =>
      rw [List.sum_range_succ, ih]
      ring

lemma list_sum_sub (f g : ℕ → ℚ) (n : ℕ) :
    ((List.range n).map f).sum - ((List.range n).map g).sum =
      ((List.range n).map (fun k => f k - g k)).sum := by
  induction n with
  | zero => simp
  | succ m ih =>
      rw [List.sum_range_succ, List.sum_range_succ, List.sum_range_succ]
      linarith

lemma list_sum_abs_le (f g : ℕ → ℚ) (n : ℕ) (eps : ℚ)
    (h : ∀ k, k < n → |f k - g k| ≤ eps) :
    |((List.range n).map f).sum - ((List.range n).map g).sum| ≤ n * eps := by
  induction n with
  | zero => simp
  | succ m ih =>
      have hm := ih (fun k hk => h k (Nat.lt_succ_of_lt hk))
      have hlast := h m (Nat.lt_succ_self m)
      rw [List.sum_range_succ, List.sum_range_succ]
      rw [abs_le] at hm hlast ⊢
      push_cast
      constructor <;> [linarith [hm.1, hlast.1]; linarith [hm.2, hlast.2]]

lemma get_map_range {α : Type} (f : ℕ → α) (n k : ℕ)
    (hk : k < ((List.range n).map f).length) :
    ((List.range n).map f).get ⟨k, hk⟩ = f k := by
  simp

/-! ### Closed descriptions of the generated rows -/

lemma straightRowsAux_eq_map (amortization r : ℚ) :
    ∀ (n : ℕ) (prev : ℚ) (i : ℕ),
      straightRowsAux amortization r n prev i =
        (List.range n).map (fun k =>
          { month := i + k + 1
            amortization := amortization
            interest_expense := (prev - k * amortization) * r
            payment := (prev - k * amortization) * r + amortization
            remaining_debt := prev - (k + 1) * amortization }) := by
  intro n
  induction n with
  | zero => intro prev i; simp [straightRowsAux]
  | succ m ih =>
      intro prev i
      rw [List.range_succ_eq_map, List.map_cons, List.map_map]
      rw [straightRowsAux, ih]
      refine List.cons_eq_cons.mpr ⟨?_, ?_⟩
      · simp only [PeriodRecord.mk.injEq]
        push_cast
        exact ⟨trivial, trivial, by ring, by ring, by ring⟩
      · refine List.map_congr_left fun k _ => ?_
        simp only [Function.comp_apply, PeriodRecord.mk.injEq, Nat.succ_eq_add_one]
        push_cast
        exact ⟨by omega, trivial, by ring, by ring, by ring⟩

lemma straight_amortization_eq_map (a : Amortizer) :
    a.straight_amortization =
      (List.range a.period).map (fun k => displayRecord (straightRaw a k)) := by
  show (straightRowsAux (a.amount / (a.period : ℚ)) (a.interest_rate / 1200)
    a.period a.amount 0).map displayRecord = _
  rw [straightRowsAux_eq_map, List.map_map]
  refine List.map_congr_left fun k _ => ?_
  simp only [Function.comp_apply, straightRaw, Nat.zero_add]

lemma annuityBal_shift (P r prev : ℚ) (k : ℕ) :
    annuityBal P r (prev * (1 + r) - P) k = annuityBal P r prev (k + 1) := by
  induction k with
  | zero => rfl
  | succ m ih => simp [annuityBal, ih]

lemma annuityRowsAux_eq_map (P r : ℚ) :
    ∀ (n : ℕ) (prev : ℚ) (i : ℕ),
      annuityRowsAux P r n prev i =
        (List.range n).map (fun k =>
          { month := i + k + 1
            amortization := P - annuityBal P r prev k * r
            interest_expense := annuityBal P r prev k * r
            payment := P
            remaining_debt := annuityBal P r prev (k + 1) }) := by
  intro n
  induction n with
  | zero => intro prev i; simp [annuityRowsAux]
  | succ m ih =>
      intro prev i
      rw [List.range_succ_eq_map, List.map_cons, List.map_map]
      rw [annuityRowsAux, ih]
      have hshift : ∀ k, annuityBal P r (prev - (P - prev * r)) k =
          annuityBal P r prev (k + 1) := by
        intro k
        have h1 : prev - (P - prev * r) = prev * (1 + r) - P := by ring
        rw [h1, annuityBal_shift]
      refine List.cons_eq_cons.mpr ⟨?_, ?_⟩
      · simp only [PeriodRecord.mk.injEq]
        refine ⟨trivial, ?_, ?_, trivial, ?_⟩
        · simp [annuityBal]
        · simp [annuityBal]
        · simp only [annuityBal]
          ring
      · refine List.map_congr_left fun k _ => ?_
        simp only [Function.comp_apply, PeriodRecord.mk.injEq, Nat.succ_eq_add_one]
        refine ⟨by omega, ?_, ?_, trivial, ?_⟩
        · rw [hshift k]
        · rw [hshift k]
        · rw [hshift (k + 1)]

lemma annuity_amortization_eq_map (a : Amortizer) (h : annuityDenom a ≠ 0) :
    a.annuity_amortization =
      .ok ((List.range a.period).map (fun k => displayRecord (annuityRaw a k))) := by
  unfold Amortizer.annuity_amortization
  rw [if_neg h, annuityRowsAux_eq_map, List.map_map]
  refine congrArg Except.ok (List.map_congr_left fun k _ => ?_)
  simp only [Function.comp_apply, annuityRaw, Nat.zero_add]

/-! ### Facts about the annuity denominator and balances -/

lemma annuityDenom_pos (a : Amortizer) (hn : a.period ≠ 0)
    (hr : 0 < a.interest_rate) : 0 < annuityDenom a := by
  unfold annuityDenom
  have hq1 : 1 < 1 + a.interest_rate / 1200 := by linarith
  have hqn : 1 < (1 + a.interest_rate / 1200) ^ a.period := one_lt_pow₀ hq1 hn
  have hqn0 : (0 : ℚ) < (1 + a.interest_rate / 1200) ^ a.period := by linarith
  have h1 : 1 / (1 + a.interest_rate / 1200) ^ a.period < 1 :=
    (div_lt_one hqn0).mpr hqn
  linarith

lemma annuityDenom_of_rate_zero (a : Amortizer) (h : a.interest_rate = 0) :
    annuityDenom a = 0 := by
  simp [annuityDenom, h]

lemma annuity_ok_denom {a : Amortizer} {l : List PeriodRecord}
    (h : a.annuity_amortization = .ok l) : annuityDenom a ≠ 0 := by
  intro h0
  rw [Amortizer.annuity_amortization, if_pos h0] at h
  exact absurd h (by simp)

lemma annuity_ok_rate_pos {a : Amortizer} {l : List PeriodRecord}
    (hv : a.Valid) (h : a.annuity_amortization = .ok l) :
    0 < a.interest_rate := by
  rcases lt_or_eq_of_le hv.2.1 with hlt | heq
  · exact hlt
  · exact absurd (annuityDenom_of_rate_zero a heq.symm) (annuity_ok_denom h)

/-- Closed form of the annuity balance recurrence, at the payment value the
source computes. -/
lemma annuityBal_closed_general (amount r : ℚ) (n : ℕ) (hr0 : 0 < r)
    (hn : n ≠ 0) (k : ℕ) :
    annuityBal (amount * r / (1 - 1 / (1 + r) ^ n)) r amount k =
      amount * ((1 + r) ^ n - (1 + r) ^ k) / ((1 + r) ^ n - 1) := by
  have hq1 : (1 : ℚ) < 1 + r := by linarith
  have hq0 : (0 : ℚ) < 1 + r := by linarith
  have hqn1 : 1 < (1 + r) ^ n := one_lt_pow₀ hq1 hn
  have hD : (1 + r) ^ n - 1 ≠ 0 := by linarith
  have hpow : (1 + r) ^ n ≠ 0 := by positivity
  have hdenom : 1 - 1 / (1 + r) ^ n ≠ 0 := by
    have : 1 / (1 + r) ^ n < 1 := (div_lt_one (by positivity)).mpr hqn1
    linarith
  induction k with
  | zero =>
      rw [annuityBal, pow_zero]
      field_simp
  | succ m ih =>
      rw [annuityBal, ih]
      field_simp
      ring

lemma annuityBal_closed (a : Amortizer) (hr : 0 < a.interest_rate)
    (hn : a.period ≠ 0) (k : ℕ) :
    annuityBal (annuityPayment a) (a.interest_rate / 1200) a.amount k =
      a.amount * ((1 + a.interest_rate / 1200) ^ a.period -
          (1 + a.interest_rate / 1200) ^ k) /
        ((1 + a.interest_rate / 1200) ^ a.period - 1) := by
  have hr0 : 0 < a.interest_rate / 1200 := by positivity
  have h := annuityBal_closed_general a.amount (a.interest_rate / 1200)
    a.period hr0 hn k
  rw [annuityPayment, annuityDenom]
  exact h

lemma annuityBal_final (a : Amortizer) (hr : 0 < a.interest_rate)
    (hn : a.period ≠ 0) :
    annuityBal (annuityPayment a) (a.interest_rate / 1200) a.amount
      a.period = 0 := by
  rw [annuityBal_closed a hr hn]
  simp

lemma annuityBal_succ_le (a : Amortizer) (hr : 0 < a.interest_rate)
    (hn : a.period ≠ 0) (hA : 0 ≤ a.amount) (k : ℕ) :
    annuityBal (annuityPayment a) (a.interest_rate / 1200) a.amount (k + 1) ≤
      annuityBal (annuityPayment a) (a.interest_rate / 1200) a.amount k := by
  rw [annuityBal_closed a hr hn, annuityBal_closed a hr hn]
  have hq1 : (1 : ℚ) < 1 + a.interest_rate / 1200 := by
    have : 0 < a.interest_rate / 1200 := by positivity
    linarith
  have hqn1 : 1 < (1 + a.interest_rate / 1200) ^ a.period :=
    one_lt_pow₀ hq1 hn
  have hD : (0 : ℚ) < (1 + a.interest_rate / 1200) ^ a.period - 1 := by
    linarith
  rw [div_le_div_iff_of_pos_right hD]
  have hk : (1 + a.interest_rate / 1200) ^ k ≤
      (1 + a.interest_rate / 1200) ^ (k + 1) :=
    pow_le_pow_right₀ (le_of_lt hq1) (Nat.le_succ k)
  nlinarith

lemma annuityBal_nonpos (a : Amortizer) (hr : 0 < a.interest_rate)
    (hn : a.period ≠ 0) (hA : a.amount ≤ 0) (k : ℕ) (hk : k ≤ a.period) :
    annuityBal (annuityPayment a) (a.interest_rate / 1200) a.amount k ≤ 0 := by
  rw [annuityBal_closed a hr hn]
  have hq1 : (1 : ℚ) < 1 + a.interest_rate / 1200 := by
    have : 0 < a.interest_rate / 1200 := by positivity
    linarith
  have hqn1 : 1 < (1 + a.interest_rate / 1200) ^ a.period :=
    one_lt_pow₀ hq1 hn
  have hk2 : (1 + a.interest_rate / 1200) ^ k ≤
      (1 + a.interest_rate / 1200) ^ a.period :=
    pow_le_pow_right₀ (le_of_lt hq1) hk
  rw [div_nonpos_iff]
  right
  constructor
  · nlinarith
  · linarith

/-! ### Evaluation helpers for concrete inputs -/

lemma round2_int (z : ℤ) (x : ℚ) (h : 100 * x = (z : ℚ)) :
    round2 x = (z : ℚ) / 100 := by
  rw [round2, h, round_intCast]

lemma clampNonneg_of_nonneg {x : ℚ} (h : 0 ≤ x) : clampNonneg x = x := by
  unfold clampNonneg
  split
  · linarith
  · rfl

lemma clampRound2_int (z : ℤ) (hz : 0 ≤ z) (x : ℚ) (h : 100 * x = (z : ℚ)) :
    clampNonneg (round2 x) = (z : ℚ) / 100 := by
  rw [round2_int z x h, clampNonneg_of_nonneg]
  exact div_nonneg (by exact_mod_cast hz) (by norm_num)

lemma straight_row (a : Amortizer) (k : ℕ) (hk : k < a.period) :
    a.straight_amortization.get? k =
      some (displayRecord (straightRaw a k)) := by
  rw [straight_amortization_eq_map, List.get?_map, List.get?_range hk]
  rfl

/-! ### Exact column sums of the raw rows -/

lemma straight_raw_amort_sum (a : Amortizer) (hn : a.period ≠ 0) :
    ((List.range a.period).map (fun _ => a.amount / (a.period : ℚ))).sum =
      a.amount := by
  rw [list_sum_const]
  have hq : ((a.period : ℚ)) ≠ 0 := Nat.cast_ne_zero.mpr hn
  field_simp

lemma annuity_raw_amort_sum (a : Amortizer) (hr : 0 < a.interest_rate)
    (hn : a.period ≠ 0) :
    ((List.range a.period).map (fun k =>
      annuityPayment a -
        annuityBal (annuityPayment a) (a.interest_rate / 1200) a.amount k *
          (a.interest_rate / 1200))).sum = a.amount := by
  have h1 : ∀ k ∈ List.range a.period,
      annuityPayment a -
          annuityBal (annuityPayment a) (a.interest_rate / 1200) a.amount k *
            (a.interest_rate / 1200) =
        annuityBal (annuityPayment a) (a.interest_rate / 1200) a.amount k -
          annuityBal (annuityPayment a) (a.interest_rate / 1200) a.amount
            (k + 1) := by
    intro k _
    simp only [annuityBal]
    ring
  rw [List.map_congr_left h1, list_sum_telescope, annuityBal_final a hr hn]
  simp [annuityBal]

/-- The straight-line balance after `j` repayments is nonpositive whenever the
loan amount is, as long as `j ≤ period`. -/
lemma straight_bal_nonpos (a : Amortizer) (hn : 0 < a.period)
    (hA : a.amount ≤ 0) (j : ℕ) (hj : j ≤ a.period) :
    a.amount - (j : ℚ) * (a.amount / (a.period : ℚ)) ≤ 0 := by
  have hq : ((a.period : ℚ)) ≠ 0 := Nat.cast_ne_zero.mpr hn.ne'
  have hq0 : (0 : ℚ) < (a.period : ℚ) := by exact_mod_cast hn
  have hj0 : (j : ℚ) ≤ (a.period : ℚ) := by exact_mod_cast hj
  have key : a.amount - (j : ℚ) * (a.amount / (a.period : ℚ)) =
      a.amount * ((a.period : ℚ) - (j : ℚ)) / (a.period : ℚ) := by
    field_simp
    ring
  rw [key, div_nonpos_iff]
  right
  exact ⟨mul_nonpos_iff.mpr (Or.inr ⟨hA, by linarith⟩), le_of_lt hq0⟩

/-- Triangle-inequality bookkeeping for the summary: if the raw per-period
values `p` and `q` differ by exactly `amount` in total, then the rounded sum
of the rounded `p` column differs from the rounded sum of the rounded `q`
column plus `amount` by at most `(n + 1) / 100`. -/
lemma summary_gap (n : ℕ) (amount : ℚ) (p q : ℕ → ℚ)
    (hpq : ((List.range n).map (fun k => p k - q k)).sum = amount) :
    |round2 (((List.range n).map (fun k => round2 (p k))).sum) -
      (round2 (((List.range n).map (fun k => round2 (q k))).sum) + amount)| ≤
      ((n : ℚ) + 1) / 100 := by
  have h1 := abs_round2_sub (((List.range n).map (fun k => round2 (p k))).sum)
  have h2 := abs_round2_sub (((List.range n).map (fun k => round2 (q k))).sum)
  have h3 := list_sum_abs_le (fun k => round2 (p k)) p n (1 / 200)
    (fun k _ => abs_round2_sub (p k))
  have h4 := list_sum_abs_le (fun k => round2 (q k)) q n (1 / 200)
    (fun k _ => abs_round2_sub (q k))
  have h5 : ((List.range n).map p).sum - ((List.range n).map q).sum =
      amount := by
    rw [list_sum_sub]
    exact hpq
  rw [abs_le] at h1 h2 h3 h4 ⊢
  constructor <;>
    linarith [h1.1, h1.2, h2.1, h2.2, h3.1, h3.2, h4.1, h4.2]

/-! ### Claim theorems -/

/-- C1 (amended): for every validly constructed `Amortizer`,
`straight_amortization` returns a schedule with exactly `period` records whose
`Month:Period` indices are `1, 2, ..., period` in insertion order; the same
holds for `annuity_amortization` whenever `interest_rate > 0`, while at
`interest_rate = 0` it raises `ZeroDivisionError` instead of returning a
schedule. -/
theorem schedule_has_period_records (a : Amortizer) (hv : a.Valid) :
    (a.straight_amortization.length = a.period ∧
      ∀ k (hk : k < a.straight_amortization.length),
        (a.straight_amortization.get ⟨k, hk⟩).month = k + 1) ∧
    (0 < a.interest_rate →
      ∃ l, a.annuity_amortization = .ok l ∧ l.length = a.period ∧
        ∀ k (hk : k < l.length), (l.get ⟨k, hk⟩).month = k + 1) := by
  constructor
  · rw [straight_amortization_eq_map]
    refine ⟨by simp, ?_⟩
    intro k hk
    rw [get_map_range]
    rfl
  · intro hr
    have hd : annuityDenom a ≠ 0 := (annuityDenom_pos a hv.1.ne' hr).ne'
    refine ⟨_, annuity_amortization_eq_map a hd, by simp, ?_⟩
    intro k hk
    rw [get_map_range]
    rfl

/-- C1 witness: the amended statement evaluated at the concrete loan
`(12000, 12, 12)`. -/
theorem schedule_has_period_records_witness :
    Amortizer.Valid ⟨12000, 12, 12⟩ ∧
      (((Amortizer.straight_amortization ⟨12000, 12, 12⟩).length = 12 ∧
        ∀ k (hk : k < (Amortizer.straight_amortization ⟨12000, 12, 12⟩).length),
          ((Amortizer.straight_amortization ⟨12000, 12, 12⟩).get ⟨k, hk⟩).month =
            k + 1) ∧
      (0 < (12 : ℚ) →
        ∃ l, Amortizer.annuity_amortization ⟨12000, 12, 12⟩ = .ok l ∧
          l.length = 12 ∧
          ∀ k (hk : k < l.length), (l.get ⟨k, hk⟩).month = k + 1)) :=
  ⟨by decide, schedule_has_period_records ⟨12000, 12, 12⟩ (by decide)⟩

/-- C1 counterexample: the claim as stated is false.  `(500, 5, 0)` is a
validly constructed `Amortizer` (rate `0` lies in `[0, 100]`), yet
`annuity_amortization` raises `ZeroDivisionError` and returns no schedule. -/
theorem annuity_no_schedule_at_zero_rate :
    Amortizer.Valid ⟨500, 5, 0⟩ ∧
      Amortizer.annuity_amortization ⟨500, 5, 0⟩ =
        .error "ZeroDivisionError: float division by zero" := by
  refine ⟨by decide, ?_⟩
  rw [Amortizer.annuity_amortization, if_pos]
  norm_num [annuityDenom]

/-- C6: the constructor raises `TypeError` when any argument is a string,
`ValueError` when `period ≤ 0` or when `interest_rate` lies outside
`[0, 100]`, and otherwise stores `float(amount)`, `period` as given and
`float(interest_rate)`. -/
theorem init_validates_arguments (amount period interest_rate : PyVal) :
    ((amount.isStr || period.isStr || interest_rate.isStr) = true →
      Amortizer.init amount period interest_rate =
        .error (.typeError "Arguments must be Integer or Float")) ∧
    ((amount.isStr || period.isStr || interest_rate.isStr) = false →
      period.toRat ≤ 0 →
      Amortizer.init amount period interest_rate =
        .error (.valueError "Period cannot be less than 0 months")) ∧
    ((amount.isStr || period.isStr || interest_rate.isStr) = false →
      0 < period.toRat →
      (interest_rate.toRat < 0 ∨ 100 < interest_rate.toRat) →
      Amortizer.init amount period interest_rate =
        .error (.valueError
          "Interest rate per year cannot be more than 100 or less then 0%")) ∧
    ((amount.isStr || period.isStr || interest_rate.isStr) = false →
      0 < period.toRat → 0 ≤ interest_rate.toRat → interest_rate.toRat ≤ 100 →
      Amortizer.init amount period interest_rate =
        .ok ⟨amount.toRat, period, interest_rate.toRat⟩) := by
  refine ⟨?_, ?_, ?_, ?_⟩
  · intro h
    simp [Amortizer.init, h]
  · intro h hp
    simp [Amortizer.init, h, hp]
  · intro h hp hio
    rcases hio with hlt | hgt
    · simp [Amortizer.init, h, not_le.mpr hp, hlt]
    · simp [Amortizer.init, h, not_le.mpr hp, hgt]
  · intro h hp hr0 hr1
    simp [Amortizer.init, h, not_le.mpr hp, not_lt.mpr hr1, not_lt.mpr hr0]

/-- C6 witness: each validation branch at a concrete input. -/
theorem init_validates_arguments_witness :
    (Amortizer.init (.pyStr "abc") (.pyInt 12) (.pyFloat 12) =
        .error (.typeError "Arguments must be Integer or Float")) ∧
    (Amortizer.init (.pyFloat 12000) (.pyInt 0) (.pyFloat 12) =
        .error (.valueError "Period cannot be less than 0 months")) ∧
    (Amortizer.init (.pyFloat 12000) (.pyInt 12) (.pyFloat 150) =
        .error (.valueError
          "Interest rate per year cannot be more than 100 or less then 0%")) ∧
    (Amortizer.init (.pyFloat 12000) (.pyInt 12) (.pyFloat (19 / 2)) =
        .ok ⟨12000, .pyInt 12, 19 / 2⟩) :=
  ⟨(init_validates_arguments _ _ _).1 rfl,
   (init_validates_arguments _ _ _).2.1 rfl (by norm_num [PyVal.toRat]),
   (init_validates_arguments _ _ _).2.2.1 rfl (by norm_num [PyVal.toRat])
     (Or.inr (by norm_num [PyVal.toRat])),
   (init_validates_arguments _ _ _).2.2.2 rfl (by norm_num [PyVal.toRat])
     (by norm_num [PyVal.toRat]) (by norm_num [PyVal.toRat])⟩

/-- C7: `get_summary` with a method string that is neither `"straight"` nor
`"annuity"` silently returns `None` instead of raising `UnknownMethod`; the
claim describes the intended behavior, the code's silent fallthrough is the
defect the spec flags. -/
theorem get_summary_unknown_method_returns_none :
    Amortizer.get_summary ⟨12000, 12, 12⟩ "compound" = none := rfl

/-- C8: at `interest_rate = 0` the annuity denominator
`1 - 1 / (1 + 0) ** period` is exactly `0`, so `annuity_amortization` raises
`ZeroDivisionError` instead of producing the zero-interest schedule the spec
prescribes. -/
theorem annuity_zero_rate_divides_by_zero :
    annuityDenom ⟨1200, 12, 0⟩ = 0 ∧
      Amortizer.annuity_amortization ⟨1200, 12, 0⟩ =
        .error "ZeroDivisionError: float division by zero" := by
  have h0 : annuityDenom ⟨1200, 12, 0⟩ = 0 := by norm_num [annuityDenom]
  exact ⟨h0, by rw [Amortizer.annuity_amortization, if_pos h0]⟩

/-- C10: the constructor never validates that `amount` is positive: any
non-string `amount` (zero and negative included) is accepted whenever `period`
and `interest_rate` are valid, and stored coerced to floating point. -/
theorem init_accepts_any_nonstring_amount (amount period interest_rate : PyVal)
    (hA : amount.isStr = false) (hP : period.isStr = false)
    (hR : interest_rate.isStr = false) (hp : 0 < period.toRat)
    (hr0 : 0 ≤ interest_rate.toRat) (hr1 : interest_rate.toRat ≤ 100) :
    Amortizer.init amount period interest_rate =
      .ok ⟨amount.toRat, period, interest_rate.toRat⟩ := by
  simp [Amortizer.init, hA, hP, hR, not_le.mpr hp, not_lt.mpr hr1,
    not_lt.mpr hr0]

/-- C10 witness: a negative amount is accepted and stored. -/
theorem init_accepts_any_nonstring_amount_witness :
    Amortizer.init (.pyFloat (-500)) (.pyInt 12) (.pyFloat 10) =
      .ok ⟨-500, .pyInt 12, 10⟩ :=
  init_accepts_any_nonstring_amount (.pyFloat (-500)) (.pyInt 12)
    (.pyFloat 10) rfl rfl rfl (by norm_num [PyVal.toRat])
    (by norm_num [PyVal.toRat]) (by norm_num [PyVal.toRat])

/-- C2: the displayed `Amortization` column sums back to `amount` within
`0.01 * period`, for the straight-line schedule always and for the annuity
schedule whenever it is produced. -/
theorem amortization_sums_to_amount (a : Amortizer) (hv : a.Valid) :
    |(a.straight_amortization.map PeriodRecord.amortization).sum - a.amount| ≤
      (a.period : ℚ) / 100 ∧
    (∀ l, a.annuity_amortization = .ok l →
      |(l.map PeriodRecord.amortization).sum - a.amount| ≤
        (a.period : ℚ) / 100) := by
  have hn0 : (0 : ℚ) ≤ (a.period : ℚ) := Nat.cast_nonneg a.period
  constructor
  · rw [straight_amortization_eq_map, List.map_map]
    have hfun : PeriodRecord.amortization ∘
        (fun k => displayRecord (straightRaw a k)) =
        fun _ : ℕ => round2 (a.amount / (a.period : ℚ)) := rfl
    rw [hfun]
    have hsum := straight_raw_amort_sum a hv.1.ne'
    have hb := list_sum_abs_le (fun _ => round2 (a.amount / (a.period : ℚ)))
      (fun _ => a.amount / (a.period : ℚ)) a.period (1 / 200)
      (fun k _ => abs_round2_sub (a.amount / (a.period : ℚ)))
    rw [hsum] at hb
    rw [abs_le] at hb ⊢
    constructor <;> linarith [hb.1, hb.2]
  · intro l hok
    have hd := annuity_ok_denom hok
    have hr := annuity_ok_rate_pos hv hok
    rw [annuity_amortization_eq_map a hd] at hok
    obtain rfl := (Except.ok.inj hok).symm
    rw [List.map_map]
    have hfun : PeriodRecord.amortization ∘
        (fun k => displayRecord (annuityRaw a k)) =
        fun k : ℕ => round2 (annuityPayment a -
          annuityBal (annuityPayment a) (a.interest_rate / 1200) a.amount k *
            (a.interest_rate / 1200)) := rfl
    rw [hfun]
    have hsum := annuity_raw_amort_sum a hr hv.1.ne'
    have hb := list_sum_abs_le
      (fun k : ℕ => round2 (annuityPayment a -
        annuityBal (annuityPayment a) (a.interest_rate / 1200) a.amount k *
          (a.interest_rate / 1200)))
      (fun k : ℕ => annuityPayment a -
        annuityBal (annuityPayment a) (a.interest_rate / 1200) a.amount k *
          (a.interest_rate / 1200))
      a.period (1 / 200) (fun k _ => abs_round2_sub _)
    rw [hsum] at hb
    rw [abs_le] at hb ⊢
    constructor <;> linarith [hb.1, hb.2]

/-- C2 witness: the bound evaluated at the concrete loan `(12000, 12, 12)`. -/
theorem amortization_sums_to_amount_witness :
    Amortizer.Valid ⟨12000, 12, 12⟩ ∧
      (|((Amortizer.straight_amortization ⟨12000, 12, 12⟩).map
          PeriodRecord.amortization).sum - 12000| ≤ (12 : ℚ) / 100 ∧
        ∀ l, Amortizer.annuity_amortization ⟨12000, 12, 12⟩ = .ok l →
          |(l.map PeriodRecord.amortization).sum - 12000| ≤ (12 : ℚ) / 100) :=
  ⟨by decide, amortization_sums_to_amount ⟨12000, 12, 12⟩ (by decide)⟩

/-- C3: the `Payment` column of every annuity schedule and the `Amortization`
column of every straight-line schedule are constant, and the concrete
scenario `amount=12000, period=12, interest_rate=12` produces the stated
straight-line values: amortization `1000` everywhere, period 1 interest
`120`, payment `1120`, remaining debt `11000`, period 12 remaining debt
`0`. -/
theorem constant_columns_and_concrete_values (a : Amortizer) (_hv : a.Valid) :
    (∀ l, a.annuity_amortization = .ok l →
      ∀ r1 ∈ l, ∀ r2 ∈ l, r1.payment = r2.payment) ∧
    (∀ r1 ∈ a.straight_amortization, ∀ r2 ∈ a.straight_amortization,
      r1.amortization = r2.amortization) ∧
    (∀ rec ∈ Amortizer.straight_amortization ⟨12000, 12, 12⟩,
      rec.amortization = 1000) ∧
    ((Amortizer.straight_amortization ⟨12000, 12, 12⟩).get? 0).map
      PeriodRecord.interest_expense = some 120 ∧
    ((Amortizer.straight_amortization ⟨12000, 12, 12⟩).get? 0).map
      PeriodRecord.payment = some 1120 ∧
    ((Amortizer.straight_amortization ⟨12000, 12, 12⟩).get? 0).map
      PeriodRecord.remaining_debt = some 11000 ∧
    ((Amortizer.straight_amortization ⟨12000, 12, 12⟩).get? 11).map
      PeriodRecord.remaining_debt = some 0 := by
  refine ⟨?_, ?_, ?_, ?_, ?_, ?_, ?_⟩
  · intro l hok r1 h1 r2 h2
    have hd := annuity_ok_denom hok
    rw [annuity_amortization_eq_map a hd] at hok
    obtain rfl := (Except.ok.inj hok).symm
    rw [List.mem_map] at h1 h2
    obtain ⟨k1, _, rfl⟩ := h1
    obtain ⟨k2, _, rfl⟩ := h2
    rfl
  · intro r1 h1 r2 h2
    rw [straight_amortization_eq_map, List.mem_map] at h1 h2
    obtain ⟨k1, _, rfl⟩ := h1
    obtain ⟨k2, _, rfl⟩ := h2
    rfl
  · intro rec hrec
    rw [straight_amortization_eq_map, List.mem_map] at hrec
    obtain ⟨k, _, rfl⟩ := hrec
    exact (round2_int 100000 _
      (by simp only [straightRaw]; push_cast; norm_num)).trans (by norm_num)
  · rw [straight_row ⟨12000, 12, 12⟩ 0 (by norm_num), Option.map_some']
    refine congrArg some ?_
    exact (round2_int 12000 _
      (by simp only [straightRaw]; push_cast; norm_num)).trans (by norm_num)
  · rw [straight_row ⟨12000, 12, 12⟩ 0 (by norm_num), Option.map_some']
    refine congrArg some ?_
    exact (round2_int 112000 _
      (by simp only [straightRaw]; push_cast; norm_num)).trans (by norm_num)
  · rw [straight_row ⟨12000, 12, 12⟩ 0 (by norm_num), Option.map_some']
    refine congrArg some ?_
    exact (clampRound2_int 1100000 (by norm_num) _
      (by simp only [straightRaw]; push_cast; norm_num)).trans (by norm_num)
  · rw [straight_row ⟨12000, 12, 12⟩ 11 (by norm_num), Option.map_some']
    refine congrArg some ?_
    exact (clampRound2_int 0 le_rfl _
      (by simp only [straightRaw]; push_cast; norm_num)).trans (by norm_num)

/-- C3 witness: the statement evaluated at the concrete loan
`(12000, 12, 12)`. -/
theorem constant_columns_and_concrete_values_witness :
    Amortizer.Valid ⟨12000, 12, 12⟩ ∧
      ((∀ l, Amortizer.annuity_amortization ⟨12000, 12, 12⟩ = .ok l →
        ∀ r1 ∈ l, ∀ r2 ∈ l, r1.payment = r2.payment) ∧
      (∀ r1 ∈ Amortizer.straight_amortization ⟨12000, 12, 12⟩,
        ∀ r2 ∈ Amortizer.straight_amortization ⟨12000, 12, 12⟩,
          r1.amortization = r2.amortization) ∧
      (∀ rec ∈ Amortizer.straight_amortization ⟨12000, 12, 12⟩,
        rec.amortization = 1000) ∧
      ((Amortizer.straight_amortization ⟨12000, 12, 12⟩).get? 0).map
        PeriodRecord.interest_expense = some 120 ∧
      ((Amortizer.straight_amortization ⟨12000, 12, 12⟩).get? 0).map
        PeriodRecord.payment = some 1120 ∧
      ((Amortizer.straight_amortization ⟨12000, 12, 12⟩).get? 0).map
        PeriodRecord.remaining_debt = some 11000 ∧
      ((Amortizer.straight_amortization ⟨12000, 12, 12⟩).get? 11).map
        PeriodRecord.remaining_debt = some 0) :=
  ⟨by decide, constant_columns_and_concrete_values ⟨12000, 12, 12⟩ (by decide)⟩

/-- C4: the displayed `Remaining debt` column is non-increasing across
consecutive periods, never negative, and exactly `0` in the final period —
for the straight-line schedule always, and for the annuity schedule whenever
it is produced. -/
theorem remaining_debt_invariants (a : Amortizer) (hv : a.Valid) :
    ((∀ k r1 r2, a.straight_amortization.get? k = some r1 →
        a.straight_amortization.get? (k + 1) = some r2 →
        r2.remaining_debt ≤ r1.remaining_debt) ∧
      (∀ rec ∈ a.straight_amortization, 0 ≤ rec.remaining_debt) ∧
      ((a.straight_amortization.get? (a.period - 1)).map
        PeriodRecord.remaining_debt = some 0)) ∧
    (∀ l, a.annuity_amortization = .ok l →
      (∀ k r1 r2, l.get? k = some r1 → l.get? (k + 1) = some r2 →
        r2.remaining_debt ≤ r1.remaining_debt) ∧
      (∀ rec ∈ l, 0 ≤ rec.remaining_debt) ∧
      ((l.get? (a.period - 1)).map PeriodRecord.remaining_debt = some 0)) := by
  have hn : 0 < a.period := hv.1
  constructor
  · refine ⟨?_, ?_, ?_⟩
    · intro k r1 r2 h1 h2
      rw [straight_amortization_eq_map] at h1 h2
      obtain ⟨hb1, hg1⟩ := List.get?_eq_some.mp h1
      obtain ⟨hb2, hg2⟩ := List.get?_eq_some.mp h2
      rw [get_map_range] at hg1 hg2
      subst hg1
      subst hg2
      have hkn : k + 1 < a.period := by simpa using hb2
      rcases le_total 0 a.amount with hA | hA
      · apply clampRound2_mono
        have hApos : 0 ≤ a.amount / (a.period : ℚ) :=
          div_nonneg hA (Nat.cast_nonneg _)
        simp only [straightRaw]
        push_cast
        nlinarith [hApos]
      · refine le_trans (le_of_eq (clampRound2_of_nonpos ?_))
          (clampNonneg_nonneg _)
        have hz := straight_bal_nonpos a hn hA (k + 2) (by omega)
        simp only [straightRaw]
        push_cast at hz ⊢
        linarith
    · intro rec hrec
      rw [straight_amortization_eq_map, List.mem_map] at hrec
      obtain ⟨k, _, rfl⟩ := hrec
      exact clampNonneg_nonneg _
    · obtain ⟨m, hm⟩ : ∃ m, a.period = m + 1 := ⟨a.period - 1, by omega⟩
      have hidx : a.period - 1 = m := by omega
      rw [hidx, straight_row a m (by omega), Option.map_some']
      refine congrArg some ?_
      show clampNonneg (round2 (a.amount -
        ((m : ℚ) + 1) * (a.amount / (a.period : ℚ)))) = 0
      have hq : ((a.period : ℚ)) = (m : ℚ) + 1 := by rw [hm]; push_cast; ring
      have hz : a.amount - ((m : ℚ) + 1) * (a.amount / (a.period : ℚ)) = 0 := by
        rw [← hq]
        have hq0 : ((a.period : ℚ)) ≠ 0 := Nat.cast_ne_zero.mpr hn.ne'
        field_simp
      rw [hz, round2_zero]
      simp [clampNonneg]
  · intro l hok
    have hd := annuity_ok_denom hok
    have hr := annuity_ok_rate_pos hv hok
    rw [annuity_amortization_eq_map a hd] at hok
    obtain rfl := (Except.ok.inj hok).symm
    refine ⟨?_, ?_, ?_⟩
    · intro k r1 r2 h1 h2
      obtain ⟨hb1, hg1⟩ := List.get?_eq_some.mp h1
      obtain ⟨hb2, hg2⟩ := List.get?_eq_some.mp h2
      rw [get_map_range] at hg1 hg2
      subst hg1
      subst hg2
      rcases le_total 0 a.amount with hA | hA
      · exact clampRound2_mono (annuityBal_succ_le a hr hn.ne' hA (k + 1))
      · refine le_trans (le_of_eq (clampRound2_of_nonpos ?_))
          (clampNonneg_nonneg _)
        have hkn : k + 1 < a.period := by simpa using hb2
        exact annuityBal_nonpos a hr hn.ne' hA (k + 1 + 1) (by omega)
    · intro rec hrec
      rw [List.mem_map] at hrec
      obtain ⟨k, _, rfl⟩ := hrec
      exact clampNonneg_nonneg _
    · obtain ⟨m, hm⟩ : ∃ m, a.period = m + 1 := ⟨a.period - 1, by omega⟩
      have hidx : a.period - 1 = m := by omega
      rw [hidx, List.get?_map, List.get?_range (by omega),
        Option.map_some', Option.map_some']
      refine congrArg some ?_
      show clampNonneg (round2 (annuityBal (annuityPayment a)
        (a.interest_rate / 1200) a.amount (m + 1))) = 0
      rw [← hm, annuityBal_final a hr hn.ne', round2_zero]
      simp [clampNonneg]

/-- C4 witness: the invariants evaluated at the concrete loan
`(12000, 12, 12)`. -/
theorem remaining_debt_invariants_witness :
    Amortizer.Valid ⟨12000, 12, 12⟩ ∧
      (((∀ k r1 r2,
          (Amortizer.straight_amortization ⟨12000, 12, 12⟩).get? k = some r1 →
          (Amortizer.straight_amortization ⟨12000, 12, 12⟩).get? (k + 1) =
            some r2 →
          r2.remaining_debt ≤ r1.remaining_debt) ∧
        (∀ rec ∈ Amortizer.straight_amortization ⟨12000, 12, 12⟩,
          0 ≤ rec.remaining_debt) ∧
        (((Amortizer.straight_amortization ⟨12000, 12, 12⟩).get? (12 - 1)).map
          PeriodRecord.remaining_debt = some 0)) ∧
      (∀ l, Amortizer.annuity_amortization ⟨12000, 12, 12⟩ = .ok l →
        (∀ k r1 r2, l.get? k = some r1 → l.get? (k + 1) = some r2 →
          r2.remaining_debt ≤ r1.remaining_debt) ∧
        (∀ rec ∈ l, 0 ≤ rec.remaining_debt) ∧
        ((l.get? (12 - 1)).map PeriodRecord.remaining_debt = some 0))) :=
  ⟨by decide, remaining_debt_invariants ⟨12000, 12, 12⟩ (by decide)⟩

/-- C5: for both method selectors the summary satisfies
`total_cost = total_interest_exp + amount` up to the accumulated two-decimal
rounding tolerance `(period + 1) / 100`. -/
theorem summary_total_cost_relation (a : Amortizer) (hv : a.Valid) :
    (∀ s, a.get_summary "straight" = some (.ok s) →
      |s.total_cost - (s.total_interest_exp + a.amount)| ≤
        ((a.period : ℚ) + 1) / 100) ∧
    (∀ s, a.get_summary "annuity" = some (.ok s) →
      |s.total_cost - (s.total_interest_exp + a.amount)| ≤
        ((a.period : ℚ) + 1) / 100) := by
  constructor
  · intro s hs
    have hs2 : summaryOf a.straight_amortization = s := by
      simpa [Amortizer.get_summary] using hs
    subst hs2
    have hp : a.straight_amortization.map PeriodRecord.payment =
        (List.range a.period).map
          (fun k => round2 ((straightRaw a k).payment)) := by
      rw [straight_amortization_eq_map, List.map_map]
      exact List.map_congr_left fun k _ => rfl
    have hq : a.straight_amortization.map PeriodRecord.interest_expense =
        (List.range a.period).map
          (fun k => round2 ((straightRaw a k).interest_expense)) := by
      rw [straight_amortization_eq_map, List.map_map]
      exact List.map_congr_left fun k _ => rfl
    have hpq : ((List.range a.period).map (fun k =>
        (straightRaw a k).payment - (straightRaw a k).interest_expense)).sum =
        a.amount := by
      have he : ∀ k ∈ List.range a.period,
          (straightRaw a k).payment - (straightRaw a k).interest_expense =
            a.amount / (a.period : ℚ) := by
        intro k _
        simp only [straightRaw]
        ring
      rw [List.map_congr_left he]
      exact straight_raw_amort_sum a hv.1.ne'
    have hgap := summary_gap a.period a.amount
      (fun k => (straightRaw a k).payment)
      (fun k => (straightRaw a k).interest_expense) hpq
    show |round2 ((a.straight_amortization.map PeriodRecord.payment).sum) -
      (round2 ((a.straight_amortization.map
        PeriodRecord.interest_expense).sum) + a.amount)| ≤
      ((a.period : ℚ) + 1) / 100
    rw [hp, hq]
    exact hgap
  · intro s hs
    have hs1 : (a.annuity_amortization).map summaryOf = .ok s := by
      simpa [Amortizer.get_summary] using hs
    rcases hA : a.annuity_amortization with e | l
    · rw [hA] at hs1
      simp [Except.map] at hs1
    · rw [hA] at hs1
      simp only [Except.map] at hs1
      have hs2 : summaryOf l = s := by
        exact Except.ok.inj hs1
      subst hs2
      have hd := annuity_ok_denom hA
      have hr := annuity_ok_rate_pos hv hA
      rw [annuity_amortization_eq_map a hd] at hA
      obtain rfl := (Except.ok.inj hA).symm
      have hp : (List.map (fun k => displayRecord (annuityRaw a k))
            (List.range a.period)).map PeriodRecord.payment =
          (List.range a.period).map
            (fun k => round2 ((annuityRaw a k).payment)) := by
        rw [List.map_map]
        exact List.map_congr_left fun k _ => rfl
      have hq : (List.map (fun k => displayRecord (annuityRaw a k))
            (List.range a.period)).map PeriodRecord.interest_expense =
          (List.range a.period).map
            (fun k => round2 ((annuityRaw a k).interest_expense)) := by
        rw [List.map_map]
        exact List.map_congr_left fun k _ => rfl
      have hpq : ((List.range a.period).map (fun k =>
          (annuityRaw a k).payment - (annuityRaw a k).interest_expense)).sum =
          a.amount := by
        have he : ∀ k ∈ List.range a.period,
            (annuityRaw a k).payment - (annuityRaw a k).interest_expense =
              annuityPayment a -
                annuityBal (annuityPayment a) (a.interest_rate / 1200)
                  a.amount k * (a.interest_rate / 1200) := by
          intro k _
          simp only [annuityRaw]
        rw [List.map_congr_left he]
        exact annuity_raw_amort_sum a hr hv.1.ne'
      have hgap := summary_gap a.period a.amount
        (fun k => (annuityRaw a k).payment)
        (fun k => (annuityRaw a k).interest_expense) hpq
      show |round2 (((List.map (fun k => displayRecord (annuityRaw a k))
          (List.range a.period)).map PeriodRecord.payment).sum) -
        (round2 (((List.map (fun k => displayRecord (annuityRaw a k))
          (List.range a.period)).map PeriodRecord.interest_expense).sum) +
          a.amount)| ≤ ((a.period : ℚ) + 1) / 100
      rw [hp, hq]
      exact hgap

/-- C5 witness: the relation evaluated at the concrete loan
`(12000, 12, 12)` for both methods. -/
theorem summary_total_cost_relation_witness :
    Amortizer.Valid ⟨12000, 12, 12⟩ ∧
      ((∀ s, Amortizer.get_summary ⟨12000, 12, 12⟩ "straight" =
          some (.ok s) →
        |s.total_cost - (s.total_interest_exp + 12000)| ≤
          ((12 : ℚ) + 1) / 100) ∧
      (∀ s, Amortizer.get_summary ⟨12000, 12, 12⟩ "annuity" =
          some (.ok s) →
        |s.total_cost - (s.total_interest_exp + 12000)| ≤
          ((12 : ℚ) + 1) / 100)) :=
  ⟨by decide, summary_total_cost_relation ⟨12000, 12, 12⟩ (by decide)⟩

/-- C9 (amended): for a validly constructed `Amortizer` with `amount ≥ 0` the
displayed `Payment` column of the straight-line schedule is non-increasing;
the underlying unrounded payments strictly decrease whenever `amount > 0` and
`interest_rate > 0`, but two-decimal rounding (or a zero rate, or a
non-positive amount) can make consecutive displayed payments equal. -/
theorem straight_payment_decreasing (a : Amortizer) (hv : a.Valid)
    (hA : 0 ≤ a.amount) :
    (∀ k r1 r2, a.straight_amortization.get? k = some r1 →
      a.straight_amortization.get? (k + 1) = some r2 →
      r2.payment ≤ r1.payment) ∧
    (0 < a.amount → 0 < a.interest_rate →
      ∀ k r1 r2,
        (straightRowsAux (a.amount / (a.period : ℚ))
          (a.interest_rate / 1200) a.period a.amount 0).get? k = some r1 →
        (straightRowsAux (a.amount / (a.period : ℚ))
          (a.interest_rate / 1200) a.period a.amount 0).get? (k + 1) =
          some r2 →
        r2.payment < r1.payment) := by
  have hApos : 0 ≤ a.amount / (a.period : ℚ) :=
    div_nonneg hA (Nat.cast_nonneg _)
  have hrpos : 0 ≤ a.interest_rate / 1200 :=
    div_nonneg hv.2.1 (by norm_num)
  constructor
  · intro k r1 r2 h1 h2
    rw [straight_amortization_eq_map] at h1 h2
    obtain ⟨hb1, hg1⟩ := List.get?_eq_some.mp h1
    obtain ⟨hb2, hg2⟩ := List.get?_eq_some.mp h2
    rw [get_map_range] at hg1 hg2
    subst hg1
    subst hg2
    apply round2_mono
    simp only [straightRaw]
    push_cast
    nlinarith [mul_nonneg hApos hrpos]
  · intro hA0 hr0 k r1 r2 h1 h2
    have hApos2 : 0 < a.amount / (a.period : ℚ) :=
      div_pos hA0 (by exact_mod_cast hv.1)
    have hrpos2 : 0 < a.interest_rate / 1200 := by positivity
    rw [straightRowsAux_eq_map] at h1 h2
    obtain ⟨hb1, hg1⟩ := List.get?_eq_some.mp h1
    obtain ⟨hb2, hg2⟩ := List.get?_eq_some.mp h2
    rw [get_map_range] at hg1 hg2
    subst hg1
    subst hg2
    push_cast
    nlinarith [mul_pos hApos2 hrpos2]

/-- C9 witness: the amended statement evaluated at the concrete loan
`(12000, 12, 12)`. -/
theorem straight_payment_decreasing_witness :
    Amortizer.Valid ⟨12000, 12, 12⟩ ∧ (0 : ℚ) ≤ 12000 ∧
      ((∀ k r1 r2,
        (Amortizer.straight_amortization ⟨12000, 12, 12⟩).get? k = some r1 →
        (Amortizer.straight_amortization ⟨12000, 12, 12⟩).get? (k + 1) =
          some r2 →
        r2.payment ≤ r1.payment) ∧
      ((0 : ℚ) < 12000 → (0 : ℚ) < 12 →
        ∀ k r1 r2,
          (straightRowsAux ((12000 : ℚ) / ((12 : ℕ) : ℚ)) ((12 : ℚ) / 1200)
            12 12000 0).get? k = some r1 →
          (straightRowsAux ((12000 : ℚ) / ((12 : ℕ) : ℚ)) ((12 : ℚ) / 1200)
            12 12000 0).get? (k + 1) = some r2 →
          r2.payment < r1.payment)) :=
  ⟨by decide, by norm_num,
    straight_payment_decreasing ⟨12000, 12, 12⟩ (by decide) (by norm_num)⟩

/-- C9 counterexample: the claim as stated is false.  At the validly
constructed `Amortizer` `(12000, 12, 0)` the displayed `Payment` value is
`1000` in both period 1 and period 2, so the column does not strictly
decrease. -/
theorem straight_payment_equal_at_zero_rate :
    Amortizer.Valid ⟨12000, 12, 0⟩ ∧
      ((Amortizer.straight_amortization ⟨12000, 12, 0⟩).get? 0).map
        PeriodRecord.payment = some 1000 ∧
      ((Amortizer.straight_amortization ⟨12000, 12, 0⟩).get? 1).map
        PeriodRecord.payment = some 1000 := by
  refine ⟨by decide, ?_, ?_⟩
  · rw [straight_row ⟨12000, 12, 0⟩ 0 (by norm_num), Option.map_some']
    refine congrArg some ?_
    exact (round2_int 100000 _
      (by simp only [straightRaw]; push_cast; norm_num)).trans (by norm_num)
  · rw [straight_row ⟨12000, 12, 0⟩ 1 (by norm_num), Option.map_some']
    refine congrArg some ?_
    exact (round2_int 100000 _
      (by simp only [straightRaw]; push_cast; norm_num)).trans (by norm_num)
